import Mathlib

/-
Shallow embedding of the streaming JXL decode driver
(image/decoders/nsJXLRustDecoder.cpp / .h).

The driver feeds chunks of an input byte stream to an opaque Rust decoding
engine, reassembles non-contiguous input in an accumulation buffer
(mBuffer), reports image size once, and on frame readiness allocates a
pixel buffer, decodes the frame, and streams rows into a surface pipe.

The engine and the surface pipe are external collaborators; they are
modelled as records of pure functions.  The engine is modelled as
deterministic in the byte sequence it has consumed so far: its process
operation consumes every byte it is handed except when it answers
"need more data", in which case it consumes nothing (the driver then
re-feeds the accumulated span, which is exactly the behaviour the C++
buffering logic is built around).

Bytes and pixel words are carried as natural numbers; machine-width
overflow plays no role in any claim.  Memory allocation (Vector append /
resize) is modelled as always succeeding.
-/

/-- Status codes of the Rust engine (jxl_rust.h).  The `unknown` constructor
models any out-of-range enum value, which `ReadJXLData` handles through the
`default:` branch of its switch. -/
inductive JxlRustStatus where
  | ok
  | needMoreData
  | invalidData
  | error
  | unknown (code : Nat)
deriving DecidableEq

/-- Image info returned by `jxl_rust_decoder_get_info`. -/
structure JxlRustImageInfo where
  width : Nat
  height : Nat
deriving DecidableEq

/-- Behavioural model of the opaque Rust engine.  Each observation is a
deterministic function of the byte sequence the engine has consumed so far:
`statusOf s` is the status `process` reports once the consumed bytes are
`s`; `infoOf s` is what `get_info` returns (`none` models a non-OK info
status); `frameReadyOf s` is `is_frame_ready`; `decodeFrameOf s cap` is the
result of `decode_frame` with a destination buffer of capacity `cap`:
status, the pixel count reported written, and the pixel words written. -/
structure JxlRustEngineModel where
  statusOf : List Nat → JxlRustStatus
  infoOf : List Nat → Option JxlRustImageInfo
  frameReadyOf : List Nat → Bool
  decodeFrameOf : List Nat → Nat → JxlRustStatus × Nat × List Nat

/-- `jxl_rust_decoder_process_data`: the engine consumes all bytes it is
handed unless it reports `needMoreData`, in which case it consumes nothing
and the driver keeps the bytes in its own accumulation buffer.  Returns the
new consumed sequence together with the status. -/
def jxl_rust_decoder_process_data (E : JxlRustEngineModel) (consumed input : List Nat) :
    List Nat × JxlRustStatus :=
  match E.statusOf (consumed ++ input) with
  | JxlRustStatus.needMoreData => (consumed, JxlRustStatus.needMoreData)
  | s => (consumed ++ input, s)

/-- `WriteState` of SurfacePipe.h, as far as the driver inspects it. -/
inductive WriteState where
  | needMoreData
  | finished
  | failure
deriving DecidableEq

/-- An integer rectangle, carried opaquely (the driver never computes with
its fields, it only forwards them). -/
structure IntRect where
  x : Nat
  y : Nat
  width : Nat
  height : Nat
deriving DecidableEq

/-- `SurfaceInvalidRect`: input-space and output-space rectangles. -/
structure SurfaceInvalidRect where
  inputSpaceRect : IntRect
  outputSpaceRect : IntRect
deriving DecidableEq

/-- Behavioural model of `SurfacePipeFactory` / `SurfacePipe` over a pipe
state type `π`: `create inSize outSize` models
`SurfacePipeFactory::CreateSurfacePipe` (returning `none` on construction
failure), `writeBuffer` models `SurfacePipe::WriteBuffer` on one row, and
`takeInvalidRect` models `SurfacePipe::TakeInvalidRect`. -/
structure SurfacePipeModel (π : Type) where
  create : Nat × Nat → Nat × Nat → Option π
  writeBuffer : π → List Nat → π × WriteState
  takeInvalidRect : π → Option SurfaceInvalidRect

/-- Observable output of the driver towards the image / sink collaborators:
`postSize` models `PostSize`, `writeRow` one `pipe->WriteBuffer` call,
`postInvalidation` models `PostInvalidation`, `postFrameStop` and
`postDecodeDone` the completion notifications, and `assertUnreachable`
models the `MOZ_ASSERT_UNREACHABLE` in `FinishedJXLData`. -/
inductive Event where
  | postSize (width height : Nat)
  | writeRow (row : List Nat)
  | postInvalidation (inputRect outputRect : IntRect)
  | postFrameStop
  | postDecodeDone
  | assertUnreachable
deriving DecidableEq

/-- The lexer transitions the driver actually yields:
`Transition::ContinueUnbuffered(State::JXL_DATA)`,
`Transition::TerminateSuccess()`, `Transition::TerminateFailure()`. -/
inductive LexerTransitionKind where
  | continueUnbuffered
  | terminateSuccess
  | terminateFailure
deriving DecidableEq

/-- Final outcome of a whole decode session. -/
inductive Outcome where
  | success
  | failure
deriving DecidableEq

/-- Per-session configuration: the engine and pipe collaborators, plus the
two `Decoder` base-class facts the driver consults.  `outputSize` models
`OutputSize()` (modelled from the spec: the requested output size, equal to
or smaller than the full size, fixed for the session; the `Decoder` base
class is not part of this repository).  `metadataDecode` models
`IsMetadataDecode()`. -/
structure DecoderConfig (π : Type) where
  engineModel : JxlRustEngineModel
  pipeModel : SurfacePipeModel π
  outputSize : Nat × Nat
  metadataDecode : Bool

/-- Mutable driver state: the engine handle's consumed bytes (standing for
the opaque `mRustDecoder` state), `HasSize()` with the recorded `mSize`,
and the accumulation buffer `mBuffer`. -/
structure DriverState where
  consumed : List Nat
  hasSize : Bool
  size : Nat × Nat
  buffer : List Nat
deriving DecidableEq

/-- Lines 67-77: the span handed to the engine — the bare chunk when
`mBuffer` is empty, otherwise the buffer with the chunk appended. -/
def inputFor (st : DriverState) (data : List Nat) : List Nat :=
  if st.buffer.isEmpty then data else st.buffer ++ data

/-- Lines 71-74: the contents of `mBuffer` after the conditional append at
the top of `ReadJXLData`. -/
def bufferAfterAppend (st : DriverState) (data : List Nat) : List Nat :=
  if st.buffer.isEmpty then st.buffer else st.buffer ++ data

/-- One row of the decoded pixel buffer: `currentRow` advances by
`outputSize.width` each iteration, so row `y` is the `w` pixels starting at
offset `y * w`. -/
def rowsOf (pixels : List Nat) (w h : Nat) : List (List Nat) :=
  (List.range h).map (fun y => (pixels.drop (y * w)).take w)

/-- Lines 137-145: stream the rows into the pipe until done or until a
write reports `WriteState::FAILURE`.  Returns the final pipe state, the
row-write events issued, and whether every write succeeded. -/
def writeRowsLoop (P : SurfacePipeModel π) : π → List (List Nat) → π × List Event × Bool
  | pipe, [] => (pipe, [], true)
  | pipe, row :: rest =>
    let step := P.writeBuffer pipe row
    match step.2 with
    | WriteState.failure => (step.1, [Event.writeRow row], false)
    | _ =>
      let tail := writeRowsLoop P step.1 rest
      (tail.1, Event.writeRow row :: tail.2.1, tail.2.2)

/-- Lines 147-150: the invalidation report — posted when `TakeInvalidRect`
returns a rectangle, omitted otherwise. -/
def invalidRectEvents : Option SurfaceInvalidRect → List Event
  | some r => [Event.postInvalidation r.inputSpaceRect r.outputSpaceRect]
  | none => []

/-- Lines 118-123: the pixel buffer handed to `decode_frame` — zero-filled
to `pixelCount` entries (`Vector::resize`), then overwritten by the pixels
the engine produced, truncated at the buffer's capacity. -/
def pixelBufferAfterDecode (pixels : List Nat) (pixelCount : Nat) : List Nat :=
  (pixels ++ List.replicate pixelCount 0).take pixelCount

/-- Lines 100-155: frame extraction.  The surface pipe is created with
`outputSize` as both logical input and logical output, the pixel buffer is
sized `outputSize.width * outputSize.height`, `decode_frame` must report
exactly that many pixels, the rows are streamed, then invalidation and the
completion notifications are posted.  Every path here is terminal. -/
def extractFrame (cfg : DecoderConfig π) (consumed1 : List Nat) :
    List Event × LexerTransitionKind :=
  match cfg.pipeModel.create cfg.outputSize cfg.outputSize with
  | none => ([], LexerTransitionKind.terminateFailure)
  | some pipe =>
    let pixelCount := cfg.outputSize.1 * cfg.outputSize.2
    let dres := cfg.engineModel.decodeFrameOf consumed1 pixelCount
    if dres.1 ≠ JxlRustStatus.ok ∨ dres.2.1 ≠ pixelCount then
      ([], LexerTransitionKind.terminateFailure)
    else
      let written := writeRowsLoop cfg.pipeModel pipe
        (rowsOf (pixelBufferAfterDecode dres.2.2 pixelCount) cfg.outputSize.1 cfg.outputSize.2)
      if written.2.2 then
        (written.2.1 ++ invalidRectEvents (cfg.pipeModel.takeInvalidRect written.1) ++
           [Event.postFrameStop, Event.postDecodeDone],
         LexerTransitionKind.terminateSuccess)
      else
        (written.2.1, LexerTransitionKind.terminateFailure)

/-- Lines 99-161: after the metadata gate, check `is_frame_ready`; extract
the frame if so, otherwise clear `mBuffer` and continue reading. -/
def afterGate (cfg : DecoderConfig π) (st : DriverState) (consumed1 : List Nat)
    (gateEvs : List Event) : DriverState × List Event × LexerTransitionKind :=
  if cfg.engineModel.frameReadyOf consumed1 then
    let ext := extractFrame cfg consumed1
    (st, gateEvs ++ ext.1, ext.2)
  else
    ({ st with buffer := [] }, gateEvs, LexerTransitionKind.continueUnbuffered)

/-- Lines 84-162: the `JXL_RUST_STATUS_OK` branch — metadata gate (record
and post the size once, terminate a metadata-only decode), then the
frame-readiness check. -/
def readOKBranch (cfg : DecoderConfig π) (st : DriverState)
    (consumed1 buf1 : List Nat) : DriverState × List Event × LexerTransitionKind :=
  match cfg.engineModel.infoOf consumed1, st.hasSize with
  | some info, false =>
    let st2 : DriverState :=
      { consumed := consumed1, hasSize := true,
        size := (info.width, info.height), buffer := buf1 }
    if cfg.metadataDecode then
      (st2, [Event.postSize info.width info.height], LexerTransitionKind.terminateSuccess)
    else
      afterGate cfg st2 consumed1 [Event.postSize info.width info.height]
  | _, _ =>
    afterGate cfg { st with consumed := consumed1, buffer := buf1 } consumed1 []

/-- `nsJXLRustDecoder::ReadJXLData` (lines 63-183): append to / use the
accumulation buffer, call `jxl_rust_decoder_process_data`, and dispatch on
the status.  Returns the new driver state, the events posted, and the
lexer transition. -/
def ReadJXLData (cfg : DecoderConfig π) (st : DriverState) (data : List Nat) :
    DriverState × List Event × LexerTransitionKind :=
  match jxl_rust_decoder_process_data cfg.engineModel st.consumed (inputFor st data) with
  | (consumed1, JxlRustStatus.ok) =>
    readOKBranch cfg st consumed1 (bufferAfterAppend st data)
  | (consumed1, JxlRustStatus.needMoreData) =>
    ({ st with consumed := consumed1,
               buffer := if (bufferAfterAppend st data).isEmpty && !data.isEmpty then data
                         else bufferAfterAppend st data },
     [], LexerTransitionKind.continueUnbuffered)
  | (consumed1, _) =>
    ({ st with consumed := consumed1, buffer := bufferAfterAppend st data }, [],
     LexerTransitionKind.terminateFailure)

/-- `nsJXLRustDecoder::FinishedJXLData` (lines 185-188): reached when the
input stream ends before the driver terminated; it fires
`MOZ_ASSERT_UNREACHABLE` (modelled by the `assertUnreachable` event) and
yields `TerminateFailure`. -/
def FinishedJXLData : List Event × LexerTransitionKind :=
  ([Event.assertUnreachable], LexerTransitionKind.terminateFailure)

/-- The streaming lexer loop of `DoDecode`: feed the delivered chunks to
`ReadJXLData` one at a time; a terminal transition ends the session, and
exhausting the input while still continuing reaches the terminal lexer
state `FINISHED_JXL_DATA`. -/
def runChunks (cfg : DecoderConfig π) :
    DriverState → List (List Nat) → DriverState × List Event × Outcome
  | st, [] => (st, FinishedJXLData.1, Outcome.failure)
  | st, c :: cs =>
    let r := ReadJXLData cfg st c
    match r.2.2 with
    | LexerTransitionKind.terminateSuccess => (r.1, r.2.1, Outcome.success)
    | LexerTransitionKind.terminateFailure => (r.1, r.2.1, Outcome.failure)
    | LexerTransitionKind.continueUnbuffered =>
      let rest := runChunks cfg r.1 cs
      (rest.1, r.2.1 ++ rest.2.1, rest.2.2)

/-- The driver state at session start (`nsJXLRustDecoder` constructor:
`mSize(0, 0)`, empty `mBuffer`, fresh engine). -/
def initialState : DriverState :=
  { consumed := [], hasSize := false, size := (0, 0), buffer := [] }

/-- A whole decode session: the observable events and the final outcome of
delivering `chunks` to a fresh driver. -/
def runDecoder (cfg : DecoderConfig π) (chunks : List (List Nat)) :
    List Event × Outcome :=
  (runChunks cfg initialState chunks).2

-- ===== infra =====
def isRowWrite : Event → Bool
  | Event.writeRow _ => true
  | _ => false

def isPostSize : Event → Bool
  | Event.postSize _ _ => true
  | _ => false

def isCompletionEvent : Event → Bool
  | Event.postInvalidation _ _ => true
  | Event.postFrameStop => true
  | Event.postDecodeDone => true
  | _ => false

def isAssertEvent : Event → Bool
  | Event.assertUnreachable => true
  | _ => false

def isBadStatus : JxlRustStatus → Bool
  | JxlRustStatus.ok => false
  | JxlRustStatus.needMoreData => false
  | _ => true

theorem processData_eq (E : JxlRustEngineModel) (s i : List Nat) :
    jxl_rust_decoder_process_data E s i =
      if E.statusOf (s ++ i) = JxlRustStatus.needMoreData then (s, JxlRustStatus.needMoreData)
      else (s ++ i, E.statusOf (s ++ i)) := by
  unfold jxl_rust_decoder_process_data
  cases h : E.statusOf (s ++ i) <;> simp [h]

theorem consumed_inputFor (st : DriverState) (c : List Nat) :
    st.consumed ++ inputFor st c = st.consumed ++ st.buffer ++ c := by
  cases h : st.buffer.isEmpty <;>
    simp_all [inputFor, List.isEmpty_iff]

theorem readJXLData_ok (cfg : DecoderConfig π) (st : DriverState) (c : List Nat)
    (hok : cfg.engineModel.statusOf (st.consumed ++ st.buffer ++ c) = JxlRustStatus.ok) :
    ReadJXLData cfg st c =
      readOKBranch cfg st (st.consumed ++ st.buffer ++ c) (bufferAfterAppend st c) := by
  unfold ReadJXLData
  rw [processData_eq, consumed_inputFor, hok]
  simp

theorem readJXLData_need (cfg : DecoderConfig π) (st : DriverState) (c : List Nat)
    (hneed : cfg.engineModel.statusOf (st.consumed ++ st.buffer ++ c) = JxlRustStatus.needMoreData) :
    ReadJXLData cfg st c =
      ({ st with buffer := if (bufferAfterAppend st c).isEmpty && !c.isEmpty then c
                           else bufferAfterAppend st c },
       [], LexerTransitionKind.continueUnbuffered) := by
  unfold ReadJXLData
  rw [processData_eq, consumed_inputFor, hneed]
  simp

theorem readJXLData_bad (cfg : DecoderConfig π) (st : DriverState) (c : List Nat)
    (hbad : isBadStatus (cfg.engineModel.statusOf (st.consumed ++ st.buffer ++ c)) = true) :
    ReadJXLData cfg st c =
      ({ st with consumed := st.consumed ++ st.buffer ++ c, buffer := bufferAfterAppend st c },
       [], LexerTransitionKind.terminateFailure) := by
  unfold ReadJXLData
  rw [processData_eq, consumed_inputFor]
  cases h : cfg.engineModel.statusOf (st.consumed ++ st.buffer ++ c) <;>
    simp_all [isBadStatus]

theorem writeRowsLoop_events (P : SurfacePipeModel π) :
    ∀ (rows : List (List Nat)) (pipe : π) (e : Event),
      e ∈ (writeRowsLoop P pipe rows).2.1 → isRowWrite e = true := by
  intro rows
  induction rows with
  | nil => intro pipe e he; simp [writeRowsLoop] at he
  | cons row rest ih =>
    intro pipe e he
    rw [writeRowsLoop] at he
    cases hws : (P.writeBuffer pipe row).2 <;> rw [hws] at he <;>
      simp only [List.mem_cons, List.not_mem_nil, or_false] at he
    case needMoreData =>
      rcases he with h | h
      · rw [h]; rfl
      · exact ih _ e h
    case finished =>
      rcases he with h | h
      · rw [h]; rfl
      · exact ih _ e h
    case failure => rw [he]; rfl

theorem event_not_size_not_assert (e : Event)
    (h : isRowWrite e = true ∨ isCompletionEvent e = true) :
    isPostSize e = false ∧ isAssertEvent e = false := by
  cases e <;> simp_all [isRowWrite, isCompletionEvent, isPostSize, isAssertEvent]

theorem invalidRectEvents_completion (o : Option SurfaceInvalidRect) (e : Event)
    (he : e ∈ invalidRectEvents o) : isCompletionEvent e = true := by
  cases o <;> simp [invalidRectEvents] at he
  rw [he]; rfl

theorem extractFrame_events (cfg : DecoderConfig π) (t : List Nat) :
    ∀ e ∈ (extractFrame cfg t).1, isRowWrite e = true ∨ isCompletionEvent e = true := by
  intro e he
  unfold extractFrame at he
  rcases hc : cfg.pipeModel.create cfg.outputSize cfg.outputSize with _ | pipe <;>
    rw [hc] at he
  · simp at he
  · simp only [] at he
    split at he
    · simp at he
    · split at he
      · simp only [List.mem_append, List.mem_cons, List.not_mem_nil, or_false] at he
        rcases he with (h | h) | h
        · exact Or.inl (writeRowsLoop_events cfg.pipeModel _ _ e h)
        · exact Or.inr (invalidRectEvents_completion _ e h)
        · rcases h with h | h <;> rw [h] <;> exact Or.inr rfl
      · exact Or.inl (writeRowsLoop_events cfg.pipeModel _ _ e he)

theorem extractFrame_terminal (cfg : DecoderConfig π) (t : List Nat) :
    (extractFrame cfg t).2 ≠ LexerTransitionKind.continueUnbuffered := by
  unfold extractFrame
  rcases cfg.pipeModel.create cfg.outputSize cfg.outputSize with _ | pipe
  · simp
  · simp only []
    split
    · simp
    · split <;> simp

/-- Abstract view of one `ReadJXLData` call on a reachable driver state:
given the total bytes delivered so far (engine-consumed plus buffered plus
the new chunk) and the current `HasSize` flag, it yields the new flag, the
events, and the transition. -/
def callSpec (cfg : DecoderConfig π) (t : List Nat) (hs : Bool) :
    Bool × List Event × LexerTransitionKind :=
  match cfg.engineModel.statusOf t with
  | JxlRustStatus.needMoreData => (hs, [], LexerTransitionKind.continueUnbuffered)
  | JxlRustStatus.ok =>
    match cfg.engineModel.infoOf t, hs with
    | some info, false =>
      if cfg.metadataDecode then
        (true, [Event.postSize info.width info.height], LexerTransitionKind.terminateSuccess)
      else if cfg.engineModel.frameReadyOf t then
        (true, Event.postSize info.width info.height :: (extractFrame cfg t).1,
         (extractFrame cfg t).2)
      else
        (true, [Event.postSize info.width info.height], LexerTransitionKind.continueUnbuffered)
    | _, _ =>
      if cfg.engineModel.frameReadyOf t then
        (hs, (extractFrame cfg t).1, (extractFrame cfg t).2)
      else
        (hs, [], LexerTransitionKind.continueUnbuffered)
  | _ => (hs, [], LexerTransitionKind.terminateFailure)

theorem readJXLData_spec (cfg : DecoderConfig π) (st : DriverState) (c : List Nat) :
    (ReadJXLData cfg st c).2 = (callSpec cfg (st.consumed ++ st.buffer ++ c) st.hasSize).2 ∧
    (ReadJXLData cfg st c).1.hasSize = (callSpec cfg (st.consumed ++ st.buffer ++ c) st.hasSize).1 ∧
    ((ReadJXLData cfg st c).2.2 = LexerTransitionKind.continueUnbuffered →
      (ReadJXLData cfg st c).1.consumed ++ (ReadJXLData cfg st c).1.buffer =
        st.consumed ++ st.buffer ++ c) := by
  cases hstat : cfg.engineModel.statusOf (st.consumed ++ st.buffer ++ c) with
  | needMoreData =>
    rw [readJXLData_need cfg st c hstat]
    unfold callSpec
    rw [hstat]
    refine ⟨rfl, rfl, fun _ => ?_⟩
    rcases hb : st.buffer with _ | ⟨b, bs⟩
    · rcases hc : c with _ | ⟨x, xs⟩ <;> simp [bufferAfterAppend, hb]
    · simp [bufferAfterAppend, hb]
  | ok =>
    rw [readJXLData_ok cfg st c hstat]
    unfold callSpec readOKBranch afterGate
    rw [hstat]
    rcases hinfo : cfg.engineModel.infoOf (st.consumed ++ st.buffer ++ c) with _ | info <;>
      cases hhs : st.hasSize <;>
      simp only [hinfo, hhs] <;>
      cases hmd : cfg.metadataDecode <;>
      cases hfr : cfg.engineModel.frameReadyOf (st.consumed ++ st.buffer ++ c) <;>
      simp_all <;>
      (intro h; exact absurd h (extractFrame_terminal cfg _))
  | invalidData =>
    rw [readJXLData_bad cfg st c (by rw [hstat]; rfl)]
    unfold callSpec
    rw [hstat]
    exact ⟨rfl, rfl, fun h => by cases h⟩
  | error =>
    rw [readJXLData_bad cfg st c (by rw [hstat]; rfl)]
    unfold callSpec
    rw [hstat]
    exact ⟨rfl, rfl, fun h => by cases h⟩
  | unknown code =>
    rw [readJXLData_bad cfg st c (by rw [hstat]; rfl)]
    unfold callSpec
    rw [hstat]
    exact ⟨rfl, rfl, fun h => by cases h⟩

theorem callSpec_need (cfg : DecoderConfig π) (t : List Nat) (hs : Bool)
    (h : cfg.engineModel.statusOf t = JxlRustStatus.needMoreData) :
    callSpec cfg t hs = (hs, [], LexerTransitionKind.continueUnbuffered) := by
  unfold callSpec; rw [h]

theorem callSpec_bad (cfg : DecoderConfig π) (t : List Nat) (hs : Bool)
    (h : isBadStatus (cfg.engineModel.statusOf t) = true) :
    callSpec cfg t hs = (hs, [], LexerTransitionKind.terminateFailure) := by
  unfold callSpec
  cases hst : cfg.engineModel.statusOf t <;> simp_all [isBadStatus]

theorem callSpec_gate_meta (cfg : DecoderConfig π) (t : List Nat) (info : JxlRustImageInfo)
    (hok : cfg.engineModel.statusOf t = JxlRustStatus.ok)
    (hi : cfg.engineModel.infoOf t = some info)
    (hm : cfg.metadataDecode = true) :
    callSpec cfg t false =
      (true, [Event.postSize info.width info.height], LexerTransitionKind.terminateSuccess) := by
  unfold callSpec; rw [hok, hi, hm]; simp

theorem callSpec_gate_ready (cfg : DecoderConfig π) (t : List Nat) (info : JxlRustImageInfo)
    (hok : cfg.engineModel.statusOf t = JxlRustStatus.ok)
    (hi : cfg.engineModel.infoOf t = some info)
    (hm : cfg.metadataDecode = false)
    (hr : cfg.engineModel.frameReadyOf t = true) :
    callSpec cfg t false =
      (true, Event.postSize info.width info.height :: (extractFrame cfg t).1,
       (extractFrame cfg t).2) := by
  unfold callSpec; rw [hok, hi, hm, hr]; simp

theorem callSpec_gate_notready (cfg : DecoderConfig π) (t : List Nat) (info : JxlRustImageInfo)
    (hok : cfg.engineModel.statusOf t = JxlRustStatus.ok)
    (hi : cfg.engineModel.infoOf t = some info)
    (hm : cfg.metadataDecode = false)
    (hr : cfg.engineModel.frameReadyOf t = false) :
    callSpec cfg t false =
      (true, [Event.postSize info.width info.height], LexerTransitionKind.continueUnbuffered) := by
  unfold callSpec; rw [hok, hi, hm, hr]; simp

theorem callSpec_nogate_ready (cfg : DecoderConfig π) (t : List Nat) (hs : Bool)
    (hok : cfg.engineModel.statusOf t = JxlRustStatus.ok)
    (hng : cfg.engineModel.infoOf t = none ∨ hs = true)
    (hr : cfg.engineModel.frameReadyOf t = true) :
    callSpec cfg t hs = (hs, (extractFrame cfg t).1, (extractFrame cfg t).2) := by
  unfold callSpec; rw [hok]
  rcases hng with h | h
  · rw [h]; cases hs <;> simp [hr]
  · rw [h]; rcases cfg.engineModel.infoOf t with _ | i <;> simp [hr]

theorem callSpec_nogate_notready (cfg : DecoderConfig π) (t : List Nat) (hs : Bool)
    (hok : cfg.engineModel.statusOf t = JxlRustStatus.ok)
    (hng : cfg.engineModel.infoOf t = none ∨ hs = true)
    (hr : cfg.engineModel.frameReadyOf t = false) :
    callSpec cfg t hs = (hs, [], LexerTransitionKind.continueUnbuffered) := by
  unfold callSpec; rw [hok]
  rcases hng with h | h
  · rw [h]; cases hs <;> simp [hr]
  · rw [h]; rcases cfg.engineModel.infoOf t with _ | i <;> simp [hr]

theorem runChunks_cons_continue (cfg : DecoderConfig π) (st : DriverState)
    (c : List Nat) (cs : List (List Nat))
    (h : (ReadJXLData cfg st c).2.2 = LexerTransitionKind.continueUnbuffered) :
    (runChunks cfg st (c :: cs)).2 =
      ((ReadJXLData cfg st c).2.1 ++ (runChunks cfg (ReadJXLData cfg st c).1 cs).2.1,
       (runChunks cfg (ReadJXLData cfg st c).1 cs).2.2) := by
  simp only [runChunks, h]

theorem runChunks_cons_success (cfg : DecoderConfig π) (st : DriverState)
    (c : List Nat) (cs : List (List Nat))
    (h : (ReadJXLData cfg st c).2.2 = LexerTransitionKind.terminateSuccess) :
    (runChunks cfg st (c :: cs)).2 = ((ReadJXLData cfg st c).2.1, Outcome.success) := by
  simp only [runChunks, h]

theorem runChunks_cons_failure (cfg : DecoderConfig π) (st : DriverState)
    (c : List Nat) (cs : List (List Nat))
    (h : (ReadJXLData cfg st c).2.2 = LexerTransitionKind.terminateFailure) :
    (runChunks cfg st (c :: cs)).2 = ((ReadJXLData cfg st c).2.1, Outcome.failure) := by
  simp only [runChunks, h]

theorem runChunks_deps (cfg : DecoderConfig π) :
    ∀ (cs : List (List Nat)) (st st2 : DriverState),
      st.consumed ++ st.buffer = st2.consumed ++ st2.buffer →
      st.hasSize = st2.hasSize →
      (runChunks cfg st cs).2 = (runChunks cfg st2 cs).2 := by
  intro cs
  induction cs with
  | nil => intro st st2 _ _; rfl
  | cons c cs ih =>
    intro st st2 hd hh
    obtain ⟨h1a, h1b, h1c⟩ := readJXLData_spec cfg st c
    obtain ⟨h2a, h2b, h2c⟩ := readJXLData_spec cfg st2 c
    have ht : st.consumed ++ st.buffer ++ c = st2.consumed ++ st2.buffer ++ c := by
      rw [hd]
    rw [ht, hh] at h1a h1b
    have hpair : (ReadJXLData cfg st c).2 = (ReadJXLData cfg st2 c).2 := by
      rw [h1a, h2a]
    have hevs : (ReadJXLData cfg st c).2.1 = (ReadJXLData cfg st2 c).2.1 :=
      congrArg Prod.fst hpair
    cases htr : (ReadJXLData cfg st c).2.2 with
    | continueUnbuffered =>
      have htr2 : (ReadJXLData cfg st2 c).2.2 = LexerTransitionKind.continueUnbuffered := by
        rw [← congrArg Prod.snd hpair, htr]
      rw [runChunks_cons_continue cfg st c cs htr, runChunks_cons_continue cfg st2 c cs htr2]
      have hrec := ih (ReadJXLData cfg st c).1 (ReadJXLData cfg st2 c).1
        (((h1c htr).trans ht).trans (h2c htr2).symm)
        (h1b.trans h2b.symm)
      rw [hevs, hrec]
    | terminateSuccess =>
      have htr2 : (ReadJXLData cfg st2 c).2.2 = LexerTransitionKind.terminateSuccess := by
        rw [← congrArg Prod.snd hpair, htr]
      rw [runChunks_cons_success cfg st c cs htr, runChunks_cons_success cfg st2 c cs htr2, hevs]
    | terminateFailure =>
      have htr2 : (ReadJXLData cfg st2 c).2.2 = LexerTransitionKind.terminateFailure := by
        rw [← congrArg Prod.snd hpair, htr]
      rw [runChunks_cons_failure cfg st c cs htr, runChunks_cons_failure cfg st2 c cs htr2, hevs]

theorem runChunks_head_deps (cfg : DecoderConfig π) (st st2 : DriverState)
    (c c2 : List Nat) (cs : List (List Nat))
    (hT : st.consumed ++ st.buffer ++ c = st2.consumed ++ st2.buffer ++ c2)
    (hh : st.hasSize = st2.hasSize) :
    (runChunks cfg st (c :: cs)).2 = (runChunks cfg st2 (c2 :: cs)).2 := by
  obtain ⟨h1a, h1b, h1c⟩ := readJXLData_spec cfg st c
  obtain ⟨h2a, h2b, h2c⟩ := readJXLData_spec cfg st2 c2
  rw [hT, hh] at h1a h1b
  have hpair : (ReadJXLData cfg st c).2 = (ReadJXLData cfg st2 c2).2 := by
    rw [h1a, h2a]
  have hevs : (ReadJXLData cfg st c).2.1 = (ReadJXLData cfg st2 c2).2.1 :=
    congrArg Prod.fst hpair
  cases htr : (ReadJXLData cfg st c).2.2 with
  | continueUnbuffered =>
    have htr2 : (ReadJXLData cfg st2 c2).2.2 = LexerTransitionKind.continueUnbuffered := by
      rw [← congrArg Prod.snd hpair, htr]
    rw [runChunks_cons_continue cfg st c cs htr, runChunks_cons_continue cfg st2 c2 cs htr2]
    have hrec := runChunks_deps cfg cs (ReadJXLData cfg st c).1 (ReadJXLData cfg st2 c2).1
      (((h1c htr).trans hT).trans (h2c htr2).symm)
      (h1b.trans h2b.symm)
    rw [hevs, hrec]
  | terminateSuccess =>
    have htr2 : (ReadJXLData cfg st2 c2).2.2 = LexerTransitionKind.terminateSuccess := by
      rw [← congrArg Prod.snd hpair, htr]
    rw [runChunks_cons_success cfg st c cs htr, runChunks_cons_success cfg st2 c2 cs htr2, hevs]
  | terminateFailure =>
    have htr2 : (ReadJXLData cfg st2 c2).2.2 = LexerTransitionKind.terminateFailure := by
      rw [← congrArg Prod.snd hpair, htr]
    rw [runChunks_cons_failure cfg st c cs htr, runChunks_cons_failure cfg st2 c2 cs htr2, hevs]

theorem extractFrame_congr (cfg : DecoderConfig π) (t1 t2 : List Nat)
    (hd : cfg.engineModel.decodeFrameOf t2 = cfg.engineModel.decodeFrameOf t1) :
    extractFrame cfg t2 = extractFrame cfg t1 := by
  unfold extractFrame; rw [hd]

theorem runChunks_head_terminal (cfg : DecoderConfig π) (st st2 : DriverState)
    (c c2 : List Nat) (cs cs2 : List (List Nat))
    (hpair : (ReadJXLData cfg st c).2 = (ReadJXLData cfg st2 c2).2)
    (hterm : (ReadJXLData cfg st c).2.2 ≠ LexerTransitionKind.continueUnbuffered) :
    (runChunks cfg st (c :: cs)).2 = (runChunks cfg st2 (c2 :: cs2)).2 := by
  have hevs : (ReadJXLData cfg st c).2.1 = (ReadJXLData cfg st2 c2).2.1 :=
    congrArg Prod.fst hpair
  cases htr : (ReadJXLData cfg st c).2.2 with
  | continueUnbuffered => exact absurd htr hterm
  | terminateSuccess =>
    have htr2 : (ReadJXLData cfg st2 c2).2.2 = LexerTransitionKind.terminateSuccess := by
      rw [← congrArg Prod.snd hpair, htr]
    rw [runChunks_cons_success cfg st c cs htr,
        runChunks_cons_success cfg st2 c2 cs2 htr2, hevs]
  | terminateFailure =>
    have htr2 : (ReadJXLData cfg st2 c2).2.2 = LexerTransitionKind.terminateFailure := by
      rw [← congrArg Prod.snd hpair, htr]
    rw [runChunks_cons_failure cfg st c cs htr,
        runChunks_cons_failure cfg st2 c2 cs2 htr2, hevs]

theorem runChunks_merge (cfg : DecoderConfig π)
    (H1 : ∀ s u, cfg.engineModel.statusOf s = JxlRustStatus.ok →
      cfg.engineModel.statusOf (s ++ u) = JxlRustStatus.ok)
    (H2 : ∀ s u, isBadStatus (cfg.engineModel.statusOf s) = true →
      isBadStatus (cfg.engineModel.statusOf (s ++ u)) = true)
    (H3 : ∀ s u i, cfg.engineModel.infoOf s = some i →
      cfg.engineModel.infoOf (s ++ u) = some i)
    (H4r : ∀ s u, cfg.engineModel.frameReadyOf s = true →
      cfg.engineModel.frameReadyOf (s ++ u) = true)
    (H4d : ∀ s u, cfg.engineModel.frameReadyOf s = true →
      cfg.engineModel.decodeFrameOf (s ++ u) = cfg.engineModel.decodeFrameOf s)
    (H4i : ∀ s u, cfg.engineModel.frameReadyOf s = true →
      cfg.engineModel.infoOf (s ++ u) = cfg.engineModel.infoOf s)
    (st : DriverState) (c1 c2 : List Nat) (cs : List (List Nat)) :
    (runChunks cfg st (c1 :: c2 :: cs)).2 = (runChunks cfg st ((c1 ++ c2) :: cs)).2 := by
  obtain ⟨h1a, h1b, h1c⟩ := readJXLData_spec cfg st c1
  obtain ⟨hma, hmb, hmc⟩ := readJXLData_spec cfg st (c1 ++ c2)
  have hT2 : st.consumed ++ st.buffer ++ (c1 ++ c2) = st.consumed ++ st.buffer ++ c1 ++ c2 :=
    (List.append_assoc (st.consumed ++ st.buffer) c1 c2).symm
  by_cases hok : cfg.engineModel.statusOf (st.consumed ++ st.buffer ++ c1) = JxlRustStatus.ok
  · -- OK at the first chunk
    have hok2 : cfg.engineModel.statusOf (st.consumed ++ st.buffer ++ (c1 ++ c2)) =
        JxlRustStatus.ok := by
      rw [hT2]; exact H1 _ c2 hok
    by_cases hgate : cfg.engineModel.infoOf (st.consumed ++ st.buffer ++ c1) = none ∨
        st.hasSize = true
    · -- the metadata gate does not fire on the first chunk
      cases hready : cfg.engineModel.frameReadyOf (st.consumed ++ st.buffer ++ c1) with
      | true =>
        -- frame extraction on the first chunk: terminal in both runs
        have hready2 : cfg.engineModel.frameReadyOf (st.consumed ++ st.buffer ++ (c1 ++ c2)) =
            true := by
          rw [hT2]; exact H4r _ c2 hready
        have hext : extractFrame cfg (st.consumed ++ st.buffer ++ (c1 ++ c2)) =
            extractFrame cfg (st.consumed ++ st.buffer ++ c1) := by
          refine extractFrame_congr cfg _ _ ?_
          rw [hT2]; exact H4d _ c2 hready
        have hgate2 : cfg.engineModel.infoOf (st.consumed ++ st.buffer ++ (c1 ++ c2)) = none ∨
            st.hasSize = true := by
          rcases hgate with h | h
          · left
            have := H4i _ c2 hready
            rw [← hT2] at this
            rw [this, h]
          · right; exact h
        rw [callSpec_nogate_ready cfg _ _ hok hgate hready] at h1a
        rw [callSpec_nogate_ready cfg _ _ hok2 hgate2 hready2, hext] at hma
        refine runChunks_head_terminal cfg st st c1 (c1 ++ c2) (c2 :: cs) cs
          (h1a.trans hma.symm) ?_
        rw [h1a]
        exact extractFrame_terminal cfg _
      | false =>
        -- no gate, no frame: plain continue; merge the remaining input
        rw [callSpec_nogate_notready cfg _ _ hok hgate hready] at h1a h1b
        have htr : (ReadJXLData cfg st c1).2.2 = LexerTransitionKind.continueUnbuffered :=
          congrArg Prod.snd h1a
        rw [runChunks_cons_continue cfg st c1 (c2 :: cs) htr, congrArg Prod.fst h1a,
            List.nil_append]
        exact runChunks_head_deps cfg (ReadJXLData cfg st c1).1 st c2 (c1 ++ c2) cs
          (by rw [h1c htr, ← List.append_assoc]) h1b
    · -- the metadata gate fires on the first chunk
      push_neg at hgate
      obtain ⟨hinfo0, hhs⟩ := hgate
      rcases hinfo : cfg.engineModel.infoOf (st.consumed ++ st.buffer ++ c1) with _ | info
      · exact absurd hinfo hinfo0
      have hhs2 : st.hasSize = false := by
        cases h : st.hasSize
        · rfl
        · exact absurd h hhs
      have hinfo2 : cfg.engineModel.infoOf (st.consumed ++ st.buffer ++ (c1 ++ c2)) =
          some info := by
        rw [hT2]; exact H3 _ c2 info hinfo
      rw [hhs2] at h1a h1b hma hmb
      by_cases hmd : cfg.metadataDecode = true
      · -- metadata-only session terminates right at the gate
        rw [callSpec_gate_meta cfg _ info hok hinfo hmd] at h1a
        rw [callSpec_gate_meta cfg _ info hok2 hinfo2 hmd] at hma
        refine runChunks_head_terminal cfg st st c1 (c1 ++ c2) (c2 :: cs) cs
          (h1a.trans hma.symm) ?_
        rw [h1a]
        simp
      · have hmd2 : cfg.metadataDecode = false := by
          cases h : cfg.metadataDecode
          · rfl
          · exact absurd h hmd
        cases hready : cfg.engineModel.frameReadyOf (st.consumed ++ st.buffer ++ c1) with
        | true =>
          -- gate plus immediate frame extraction
          have hready2 : cfg.engineModel.frameReadyOf
              (st.consumed ++ st.buffer ++ (c1 ++ c2)) = true := by
            rw [hT2]; exact H4r _ c2 hready
          have hext : extractFrame cfg (st.consumed ++ st.buffer ++ (c1 ++ c2)) =
              extractFrame cfg (st.consumed ++ st.buffer ++ c1) := by
            refine extractFrame_congr cfg _ _ ?_
            rw [hT2]; exact H4d _ c2 hready
          rw [callSpec_gate_ready cfg _ info hok hinfo hmd2 hready] at h1a
          rw [callSpec_gate_ready cfg _ info hok2 hinfo2 hmd2 hready2, hext] at hma
          refine runChunks_head_terminal cfg st st c1 (c1 ++ c2) (c2 :: cs) cs
            (h1a.trans hma.symm) ?_
          rw [h1a]
          exact extractFrame_terminal cfg _
        | false =>
          -- gate fires, no frame yet: the merged run posts the size on its
          -- single call, the split run posted it on the first chunk
          rw [callSpec_gate_notready cfg _ info hok hinfo hmd2 hready] at h1a h1b
          have htr : (ReadJXLData cfg st c1).2.2 = LexerTransitionKind.continueUnbuffered :=
            congrArg Prod.snd h1a
          rw [runChunks_cons_continue cfg st c1 (c2 :: cs) htr, congrArg Prod.fst h1a]
          -- second call of the split run
          obtain ⟨h2a, h2b, h2c⟩ := readJXLData_spec cfg (ReadJXLData cfg st c1).1 c2
          have harg : (ReadJXLData cfg st c1).1.consumed ++ (ReadJXLData cfg st c1).1.buffer
              ++ c2 = st.consumed ++ st.buffer ++ (c1 ++ c2) := by
            rw [h1c htr, List.append_assoc]
          rw [harg, h1b] at h2a h2b
          cases hready2 : cfg.engineModel.frameReadyOf
              (st.consumed ++ st.buffer ++ (c1 ++ c2)) with
          | true =>
            -- the merged call extracts; the split run extracts on chunk 2
            rw [callSpec_nogate_ready cfg _ _ hok2 (Or.inr rfl) hready2] at h2a
            rw [callSpec_gate_ready cfg _ info hok2 hinfo2 hmd2 hready2] at hma
            have hterm2 : (ReadJXLData cfg (ReadJXLData cfg st c1).1 c2).2.2 ≠
                LexerTransitionKind.continueUnbuffered := by
              rw [congrArg Prod.snd h2a]
              exact extractFrame_terminal cfg _
            cases hext : (extractFrame cfg (st.consumed ++ st.buffer ++ (c1 ++ c2))).2 with
            | continueUnbuffered => exact absurd hext (extractFrame_terminal cfg _)
            | terminateSuccess =>
              have hsplit : (ReadJXLData cfg (ReadJXLData cfg st c1).1 c2).2.2 =
                  LexerTransitionKind.terminateSuccess := by
                rw [congrArg Prod.snd h2a, hext]
              have hmer2 : (ReadJXLData cfg st (c1 ++ c2)).2.2 =
                  LexerTransitionKind.terminateSuccess := by
                rw [congrArg Prod.snd hma, hext]
              rw [runChunks_cons_success cfg _ c2 cs hsplit,
                  runChunks_cons_success cfg st (c1 ++ c2) cs hmer2,
                  congrArg Prod.fst h2a, congrArg Prod.fst hma]
              simp
            | terminateFailure =>
              have hsplit : (ReadJXLData cfg (ReadJXLData cfg st c1).1 c2).2.2 =
                  LexerTransitionKind.terminateFailure := by
                rw [congrArg Prod.snd h2a, hext]
              have hmer2 : (ReadJXLData cfg st (c1 ++ c2)).2.2 =
                  LexerTransitionKind.terminateFailure := by
                rw [congrArg Prod.snd hma, hext]
              rw [runChunks_cons_failure cfg _ c2 cs hsplit,
                  runChunks_cons_failure cfg st (c1 ++ c2) cs hmer2,
                  congrArg Prod.fst h2a, congrArg Prod.fst hma]
              simp
          | false =>
            -- neither run has a frame yet after all the input
            rw [callSpec_nogate_notready cfg _ _ hok2 (Or.inr rfl) hready2] at h2a h2b
            rw [callSpec_gate_notready cfg _ info hok2 hinfo2 hmd2 hready2] at hma hmb
            have hsplit : (ReadJXLData cfg (ReadJXLData cfg st c1).1 c2).2.2 =
                LexerTransitionKind.continueUnbuffered :=
              congrArg Prod.snd h2a
            have hmer2 : (ReadJXLData cfg st (c1 ++ c2)).2.2 =
                LexerTransitionKind.continueUnbuffered :=
              congrArg Prod.snd hma
            rw [runChunks_cons_continue cfg _ c2 cs hsplit,
                runChunks_cons_continue cfg st (c1 ++ c2) cs hmer2,
                congrArg Prod.fst h2a, congrArg Prod.fst hma]
            have hrec := runChunks_deps cfg cs (ReadJXLData cfg (ReadJXLData cfg st c1).1 c2).1
              (ReadJXLData cfg st (c1 ++ c2)).1
              (((h2c hsplit).trans harg).trans (hmc hmer2).symm)
              (h2b.trans hmb.symm)
            rw [hrec]
            simp
  · by_cases hneed : cfg.engineModel.statusOf (st.consumed ++ st.buffer ++ c1) =
        JxlRustStatus.needMoreData
    · -- need more data on the first chunk: accumulate and continue
      rw [callSpec_need cfg _ _ hneed] at h1a h1b
      have htr : (ReadJXLData cfg st c1).2.2 = LexerTransitionKind.continueUnbuffered :=
        congrArg Prod.snd h1a
      rw [runChunks_cons_continue cfg st c1 (c2 :: cs) htr, congrArg Prod.fst h1a,
          List.nil_append]
      exact runChunks_head_deps cfg (ReadJXLData cfg st c1).1 st c2 (c1 ++ c2) cs
        (by rw [h1c htr, ← List.append_assoc]) h1b
    · -- invalid data, engine error, or an unrecognized status: terminal failure
      have hbad : isBadStatus (cfg.engineModel.statusOf (st.consumed ++ st.buffer ++ c1)) =
          true := by
        cases hx : cfg.engineModel.statusOf (st.consumed ++ st.buffer ++ c1) <;>
          simp_all [isBadStatus]
      have hbad2 : isBadStatus
          (cfg.engineModel.statusOf (st.consumed ++ st.buffer ++ (c1 ++ c2))) = true := by
        rw [hT2]; exact H2 _ c2 hbad
      rw [callSpec_bad cfg _ _ hbad] at h1a
      rw [callSpec_bad cfg _ _ hbad2] at hma
      refine runChunks_head_terminal cfg st st c1 (c1 ++ c2) (c2 :: cs) cs
        (h1a.trans hma.symm) ?_
      rw [h1a]
      simp

theorem runChunks_join_aux (cfg : DecoderConfig π)
    (H1 : ∀ s u, cfg.engineModel.statusOf s = JxlRustStatus.ok →
      cfg.engineModel.statusOf (s ++ u) = JxlRustStatus.ok)
    (H2 : ∀ s u, isBadStatus (cfg.engineModel.statusOf s) = true →
      isBadStatus (cfg.engineModel.statusOf (s ++ u)) = true)
    (H3 : ∀ s u i, cfg.engineModel.infoOf s = some i →
      cfg.engineModel.infoOf (s ++ u) = some i)
    (H4r : ∀ s u, cfg.engineModel.frameReadyOf s = true →
      cfg.engineModel.frameReadyOf (s ++ u) = true)
    (H4d : ∀ s u, cfg.engineModel.frameReadyOf s = true →
      cfg.engineModel.decodeFrameOf (s ++ u) = cfg.engineModel.decodeFrameOf s)
    (H4i : ∀ s u, cfg.engineModel.frameReadyOf s = true →
      cfg.engineModel.infoOf (s ++ u) = cfg.engineModel.infoOf s) :
    ∀ (n : Nat) (chunks : List (List Nat)), chunks.length ≤ n → chunks ≠ [] →
      (runChunks cfg initialState chunks).2 =
        (runChunks cfg initialState [chunks.flatten]).2 := by
  intro n
  induction n with
  | zero =>
    intro chunks hlen hne
    cases chunks with
    | nil => exact absurd rfl hne
    | cons c cs => simp at hlen
  | succ n ih =>
    intro chunks hlen hne
    match chunks with
    | [c] => simp [List.flatten]
    | c1 :: c2 :: cs =>
      rw [runChunks_merge cfg H1 H2 H3 H4r H4d H4i initialState c1 c2 cs]
      have h2 := ih ((c1 ++ c2) :: cs) (by simp at hlen ⊢; omega) (by simp)
      rw [h2]
      have hj : ((c1 ++ c2) :: cs).flatten = (c1 :: c2 :: cs).flatten := by
        simp [List.flatten, List.append_assoc]
      rw [hj]

/-- Claim C2: for every input byte sequence and every way of splitting it
into one or more chunks at arbitrary boundaries, the driver delivers the
same final outcome and the same observable output (size announcement, row
writes, invalidation, completion signals) as when the whole input arrives
as a single chunk.  The engine is an opaque deterministic collaborator; the
hypotheses record its contract: its status, image info, frame readiness and
decoded frame are functions of the bytes consumed so far that stay coherent
as more input arrives (an OK status and a bad status persist, published
info persists, and a ready frame together with its info and pixels is
stable). -/
theorem c2_chunk_boundary_invariance (cfg : DecoderConfig π)
    (H1 : ∀ s u, cfg.engineModel.statusOf s = JxlRustStatus.ok →
      cfg.engineModel.statusOf (s ++ u) = JxlRustStatus.ok)
    (H2 : ∀ s u, isBadStatus (cfg.engineModel.statusOf s) = true →
      isBadStatus (cfg.engineModel.statusOf (s ++ u)) = true)
    (H3 : ∀ s u i, cfg.engineModel.infoOf s = some i →
      cfg.engineModel.infoOf (s ++ u) = some i)
    (H4r : ∀ s u, cfg.engineModel.frameReadyOf s = true →
      cfg.engineModel.frameReadyOf (s ++ u) = true)
    (H4d : ∀ s u, cfg.engineModel.frameReadyOf s = true →
      cfg.engineModel.decodeFrameOf (s ++ u) = cfg.engineModel.decodeFrameOf s)
    (H4i : ∀ s u, cfg.engineModel.frameReadyOf s = true →
      cfg.engineModel.infoOf (s ++ u) = cfg.engineModel.infoOf s)
    (chunks : List (List Nat)) (hne : chunks ≠ []) :
    runDecoder cfg chunks = runDecoder cfg [chunks.flatten] := by
  unfold runDecoder
  exact runChunks_join_aux cfg H1 H2 H3 H4r H4d H4i chunks.length chunks le_rfl hne

/-- A concrete well-behaved engine for witnesses: always OK, fixed 2x2
info, frame always ready, decode fills the buffer exactly. -/
def witEngine : JxlRustEngineModel :=
  { statusOf := fun _ => JxlRustStatus.ok
    infoOf := fun _ => some { width := 2, height := 2 }
    frameReadyOf := fun _ => true
    decodeFrameOf := fun _ cap => (JxlRustStatus.ok, cap, List.replicate cap 1) }

/-- A concrete pipe that accepts every row and reports no invalid rect. -/
def witPipe : SurfacePipeModel Unit :=
  { create := fun _ _ => some ()
    writeBuffer := fun _ _ => ((), WriteState.needMoreData)
    takeInvalidRect := fun _ => none }

def c2WitCfg : DecoderConfig Unit :=
  { engineModel := witEngine, pipeModel := witPipe,
    outputSize := (2, 2), metadataDecode := false }

/-- Witness for C2 at a concrete split of the input [0, 1]. -/
theorem c2_chunk_boundary_invariance_witness :
    runDecoder c2WitCfg [[0], [1]] = runDecoder c2WitCfg [[0, 1]] :=
  c2_chunk_boundary_invariance c2WitCfg
    (fun _ _ _ => rfl) (fun _ _ h => h) (fun _ _ _ h => h)
    (fun _ _ _ => rfl) (fun _ _ _ => rfl) (fun _ _ _ => rfl)
    [[0], [1]] (by simp)

/-- Engine for the C1 downscale scenario: a 64x48 image whose frame is
ready; `decode_frame` fills whatever buffer capacity it is handed. -/
def c1Engine : JxlRustEngineModel :=
  { statusOf := fun _ => JxlRustStatus.ok
    infoOf := fun _ => some { width := 64, height := 48 }
    frameReadyOf := fun _ => true
    decodeFrameOf := fun _ cap => (JxlRustStatus.ok, cap, List.replicate cap 0) }

/-- Pipe for the C1 scenario: accepts every row, no invalid rect. -/
def c1Pipe : SurfacePipeModel Unit :=
  { create := fun _ _ => some ()
    writeBuffer := fun _ _ => ((), WriteState.needMoreData)
    takeInvalidRect := fun _ => none }

/-- The C1 session: full decode of the 64x48 image with a downscale request
to 32x24 (`OutputSize()` smaller than the recorded `ImageSize`). -/
def c1Cfg : DecoderConfig Unit :=
  { engineModel := c1Engine, pipeModel := c1Pipe,
    outputSize := (32, 24), metadataDecode := false }

set_option maxRecDepth 40000 in
/-- Claim C1: evaluation of the driver at the downscale session.  The
session reports the full 64x48 size, then decodes at the requested 32x24
size: it performs 24 row writes of 32 pixels each and succeeds — the code
sizes the pixel buffer, the surface pipe input, and the row loop by
`OutputSize()` instead of the recorded full-resolution size, so the
full-resolution decode mandated by the spec (48 rows of 64 pixels) never
happens. -/
theorem c1_downscale_decodes_at_output_size :
    (runDecoder c1Cfg [[0]]).2 = Outcome.success ∧
    (runDecoder c1Cfg [[0]]).1.countP isRowWrite = 24 ∧
    (runDecoder c1Cfg [[0]]).1.all
      (fun e => match e with
        | Event.writeRow r => r.length == 32
        | _ => true) = true ∧
    (runDecoder c1Cfg [[0]]).1.head? = some (Event.postSize 64 48) := by
  decide

theorem extractFrame_mismatch (cfg : DecoderConfig π) (t : List Nat)
    (hmis : (cfg.engineModel.decodeFrameOf t (cfg.outputSize.1 * cfg.outputSize.2)).1 ≠
        JxlRustStatus.ok ∨
      (cfg.engineModel.decodeFrameOf t (cfg.outputSize.1 * cfg.outputSize.2)).2.1 ≠
        cfg.outputSize.1 * cfg.outputSize.2) :
    extractFrame cfg t = ([], LexerTransitionKind.terminateFailure) := by
  unfold extractFrame
  rcases cfg.pipeModel.create cfg.outputSize cfg.outputSize with _ | pipe
  · rfl
  · simp only []
    rw [if_pos hmis]

/-- Claim C3: whenever `decode_frame` reports a non-OK status or a pixel
count different from the expected pixel count of the frame buffer
(`width * height` of the size the driver decodes at), the call terminates
with failure and no row is ever streamed to the sink. -/
theorem c3_decode_frame_mismatch_is_terminal (cfg : DecoderConfig π) (st : DriverState)
    (data : List Nat)
    (hmeta : cfg.metadataDecode = false)
    (hok : cfg.engineModel.statusOf (st.consumed ++ st.buffer ++ data) = JxlRustStatus.ok)
    (hready : cfg.engineModel.frameReadyOf (st.consumed ++ st.buffer ++ data) = true)
    (hmis : (cfg.engineModel.decodeFrameOf (st.consumed ++ st.buffer ++ data)
        (cfg.outputSize.1 * cfg.outputSize.2)).1 ≠ JxlRustStatus.ok ∨
      (cfg.engineModel.decodeFrameOf (st.consumed ++ st.buffer ++ data)
        (cfg.outputSize.1 * cfg.outputSize.2)).2.1 ≠
        cfg.outputSize.1 * cfg.outputSize.2) :
    (ReadJXLData cfg st data).2.2 = LexerTransitionKind.terminateFailure ∧
    (ReadJXLData cfg st data).2.1.all (fun e => !isRowWrite e) = true := by
  obtain ⟨ha, _, _⟩ := readJXLData_spec cfg st data
  have hext := extractFrame_mismatch cfg (st.consumed ++ st.buffer ++ data) hmis
  rcases hinfo : cfg.engineModel.infoOf (st.consumed ++ st.buffer ++ data) with _ | info
  · rw [callSpec_nogate_ready cfg _ _ hok (Or.inl hinfo) hready, hext] at ha
    rw [ha]
    exact ⟨rfl, rfl⟩
  · cases hhs : st.hasSize
    · rw [hhs] at ha
      rw [callSpec_gate_ready cfg _ info hok hinfo hmeta hready, hext] at ha
      rw [ha]
      exact ⟨rfl, rfl⟩
    · rw [callSpec_nogate_ready cfg _ _ hok (Or.inr hhs) hready, hext] at ha
      rw [ha]
      exact ⟨rfl, rfl⟩

/-- Engine for the C3 witness: frame ready but `decode_frame` reports zero
pixels written. -/
def c3WitEngine : JxlRustEngineModel :=
  { statusOf := fun _ => JxlRustStatus.ok
    infoOf := fun _ => some { width := 1, height := 1 }
    frameReadyOf := fun _ => true
    decodeFrameOf := fun _ _ => (JxlRustStatus.ok, 0, []) }

def c3WitPipe : SurfacePipeModel Unit :=
  { create := fun _ _ => some ()
    writeBuffer := fun _ _ => ((), WriteState.needMoreData)
    takeInvalidRect := fun _ => none }

def c3WitCfg : DecoderConfig Unit :=
  { engineModel := c3WitEngine, pipeModel := c3WitPipe,
    outputSize := (1, 1), metadataDecode := false }

/-- Witness for C3: a short decode_frame report makes the call fail with no
row writes. -/
theorem c3_decode_frame_mismatch_is_terminal_witness :
    (ReadJXLData c3WitCfg initialState [0]).2.2 = LexerTransitionKind.terminateFailure ∧
    (ReadJXLData c3WitCfg initialState [0]).2.1.all (fun e => !isRowWrite e) = true :=
  c3_decode_frame_mismatch_is_terminal c3WitCfg initialState [0] rfl rfl rfl
    (Or.inr (by decide))

/-- Claim C6: an `INVALID_DATA`, `ERROR`, or out-of-range status from the
engine process call makes the driver terminate with failure at once, with
no output events, and the rest of the input is never handed to the engine
(the session ends at that chunk, so nothing is retried). -/
theorem c6_bad_status_terminal (cfg : DecoderConfig π) (st : DriverState) (data : List Nat)
    (cs : List (List Nat))
    (hbad : isBadStatus (cfg.engineModel.statusOf (st.consumed ++ st.buffer ++ data)) = true) :
    (ReadJXLData cfg st data).2 = ([], LexerTransitionKind.terminateFailure) ∧
    (runChunks cfg st (data :: cs)).2 = ([], Outcome.failure) := by
  have h := readJXLData_bad cfg st data hbad
  have h2 : (ReadJXLData cfg st data).2 = ([], LexerTransitionKind.terminateFailure) :=
    congrArg Prod.snd h
  refine ⟨h2, ?_⟩
  rw [runChunks_cons_failure cfg st data cs (congrArg Prod.snd h2),
      congrArg Prod.fst h2]

def c6WitEngine : JxlRustEngineModel :=
  { statusOf := fun _ => JxlRustStatus.error
    infoOf := fun _ => none
    frameReadyOf := fun _ => false
    decodeFrameOf := fun _ _ => (JxlRustStatus.error, 0, []) }

def c6WitCfg : DecoderConfig Unit :=
  { engineModel := c6WitEngine, pipeModel := c3WitPipe,
    outputSize := (1, 1), metadataDecode := false }

/-- Witness for C6: an engine that reports `ERROR` on the first chunk. -/
theorem c6_bad_status_terminal_witness :
    (ReadJXLData c6WitCfg initialState [0]).2 = ([], LexerTransitionKind.terminateFailure) ∧
    (runChunks c6WitCfg initialState [[0], [1]]).2 = ([], Outcome.failure) :=
  c6_bad_status_terminal c6WitCfg initialState [0] [[1]] rfl

/-- Claim C8: whenever the engine answers OK and the driver keeps reading
(continues out of the need-more-data regime), the pending accumulation
buffer is left empty, so the buffer is non-empty only while reassembly is
in progress. -/
theorem c8_buffer_cleared_after_ok_continue (cfg : DecoderConfig π) (st : DriverState)
    (data : List Nat)
    (hok : cfg.engineModel.statusOf (st.consumed ++ st.buffer ++ data) = JxlRustStatus.ok)
    (hcont : (ReadJXLData cfg st data).2.2 = LexerTransitionKind.continueUnbuffered) :
    (ReadJXLData cfg st data).1.buffer = [] := by
  rw [readJXLData_ok cfg st data hok] at hcont ⊢
  unfold readOKBranch afterGate at hcont ⊢
  rcases hinfo : cfg.engineModel.infoOf (st.consumed ++ st.buffer ++ data) with _ | info <;>
    cases hhs : st.hasSize <;>
    simp only [hinfo, hhs] at hcont ⊢ <;>
    cases hmd : cfg.metadataDecode <;>
    cases hready : cfg.engineModel.frameReadyOf (st.consumed ++ st.buffer ++ data) <;>
    simp_all
  all_goals
    exact absurd hcont (extractFrame_terminal cfg _)

def c8WitEngine : JxlRustEngineModel :=
  { statusOf := fun _ => JxlRustStatus.ok
    infoOf := fun _ => none
    frameReadyOf := fun _ => false
    decodeFrameOf := fun _ _ => (JxlRustStatus.error, 0, []) }

def c8WitCfg : DecoderConfig Unit :=
  { engineModel := c8WitEngine, pipeModel := c3WitPipe,
    outputSize := (1, 1), metadataDecode := false }

/-- Witness for C8: an OK call with no frame yet leaves the buffer empty
even when bytes had been accumulated before the call. -/
theorem c8_buffer_cleared_after_ok_continue_witness :
    (ReadJXLData c8WitCfg
      { consumed := [], hasSize := false, size := (0, 0), buffer := [7] } [8]).1.buffer = [] :=
  c8_buffer_cleared_after_ok_continue c8WitCfg
    { consumed := [], hasSize := false, size := (0, 0), buffer := [7] } [8] rfl (by decide)

/-- Claim C10: on an OK status with a ready frame the driver proceeds
straight to frame extraction even when no image info was ever obtained and
no size was recorded — the `ImageSize is known` precondition is not checked
anywhere on that path. -/
theorem c10_extraction_without_recorded_size (cfg : DecoderConfig π) (st : DriverState)
    (data : List Nat)
    (hok : cfg.engineModel.statusOf (st.consumed ++ st.buffer ++ data) = JxlRustStatus.ok)
    (hready : cfg.engineModel.frameReadyOf (st.consumed ++ st.buffer ++ data) = true)
    (hnoinfo : cfg.engineModel.infoOf (st.consumed ++ st.buffer ++ data) = none)
    (hnosize : st.hasSize = false) :
    (ReadJXLData cfg st data).2 = extractFrame cfg (st.consumed ++ st.buffer ++ data) := by
  obtain ⟨ha, _, _⟩ := readJXLData_spec cfg st data
  rw [ha, callSpec_nogate_ready cfg _ _ hok (Or.inl hnoinfo) hready]

def c10WitEngine : JxlRustEngineModel :=
  { statusOf := fun _ => JxlRustStatus.ok
    infoOf := fun _ => none
    frameReadyOf := fun _ => true
    decodeFrameOf := fun _ cap => (JxlRustStatus.ok, cap, List.replicate cap 3) }

def c10WitCfg : DecoderConfig Unit :=
  { engineModel := c10WitEngine, pipeModel := c3WitPipe,
    outputSize := (1, 1), metadataDecode := false }

/-- Witness for C10: with no info available and a ready frame, the call is
exactly the frame-extraction result. -/
theorem c10_extraction_without_recorded_size_witness :
    (ReadJXLData c10WitCfg initialState [0]).2 = extractFrame c10WitCfg [0] :=
  c10_extraction_without_recorded_size c10WitCfg initialState [0] rfl rfl rfl rfl

theorem runChunks_cons_continue_full (cfg : DecoderConfig π) (st : DriverState)
    (c : List Nat) (cs : List (List Nat))
    (h : (ReadJXLData cfg st c).2.2 = LexerTransitionKind.continueUnbuffered) :
    runChunks cfg st (c :: cs) =
      ((runChunks cfg (ReadJXLData cfg st c).1 cs).1,
       (ReadJXLData cfg st c).2.1 ++ (runChunks cfg (ReadJXLData cfg st c).1 cs).2.1,
       (runChunks cfg (ReadJXLData cfg st c).1 cs).2.2) := by
  simp only [runChunks, h]

theorem runChunks_cons_success_full (cfg : DecoderConfig π) (st : DriverState)
    (c : List Nat) (cs : List (List Nat))
    (h : (ReadJXLData cfg st c).2.2 = LexerTransitionKind.terminateSuccess) :
    runChunks cfg st (c :: cs) =
      ((ReadJXLData cfg st c).1, (ReadJXLData cfg st c).2.1, Outcome.success) := by
  simp only [runChunks, h]

theorem runChunks_cons_failure_full (cfg : DecoderConfig π) (st : DriverState)
    (c : List Nat) (cs : List (List Nat))
    (h : (ReadJXLData cfg st c).2.2 = LexerTransitionKind.terminateFailure) :
    runChunks cfg st (c :: cs) =
      ((ReadJXLData cfg st c).1, (ReadJXLData cfg st c).2.1, Outcome.failure) := by
  simp only [runChunks, h]

theorem extractFrame_no_postSize (cfg : DecoderConfig π) (t : List Nat) :
    (extractFrame cfg t).1.countP isPostSize = 0 := by
  rw [List.countP_eq_zero]
  intro e he
  have h := extractFrame_events cfg t e he
  simp [(event_not_size_not_assert e h).1]

theorem callSpec_postSize_count (cfg : DecoderConfig π) (t : List Nat) (hs : Bool) :
    (callSpec cfg t hs).2.1.countP isPostSize =
      (if (callSpec cfg t hs).1 && !hs then 1 else 0) ∧
    (hs = true → (callSpec cfg t hs).1 = true) := by
  unfold callSpec
  cases hstat : cfg.engineModel.statusOf t <;> simp only []
  case ok =>
    rcases hinfo : cfg.engineModel.infoOf t with _ | info <;> cases hs <;> simp only [] <;>
      by_cases hmd : cfg.metadataDecode = true <;>
      cases hready : cfg.engineModel.frameReadyOf t <;>
      simp_all [List.countP_cons, extractFrame_no_postSize, isPostSize]
  all_goals simp

theorem runChunks_postSize_count (cfg : DecoderConfig π) :
    ∀ (cs : List (List Nat)) (st : DriverState),
      (st.hasSize = true →
        (runChunks cfg st cs).1.hasSize = true ∧
        (runChunks cfg st cs).2.1.countP isPostSize = 0) ∧
      (st.hasSize = false →
        (runChunks cfg st cs).2.1.countP isPostSize =
          (if (runChunks cfg st cs).1.hasSize then 1 else 0)) := by
  intro cs
  induction cs with
  | nil =>
    intro st
    constructor
    · intro h; exact ⟨h, rfl⟩
    · intro h
      show (FinishedJXLData.1.countP isPostSize) = if st.hasSize then 1 else 0
      rw [h]
      rfl
  | cons c cs ih =>
    intro st
    obtain ⟨ha, hb, hc⟩ := readJXLData_spec cfg st c
    obtain ⟨hcount, hmono⟩ :=
      callSpec_postSize_count cfg (st.consumed ++ st.buffer ++ c) st.hasSize
    have hevc : (ReadJXLData cfg st c).2.1.countP isPostSize =
        (if (callSpec cfg (st.consumed ++ st.buffer ++ c) st.hasSize).1 && !st.hasSize
         then 1 else 0) := by
      rw [congrArg Prod.fst ha]; exact hcount
    cases htr : (ReadJXLData cfg st c).2.2 with
    | continueUnbuffered =>
      rw [runChunks_cons_continue_full cfg st c cs htr]
      obtain ⟨ih1, ih2⟩ := ih (ReadJXLData cfg st c).1
      constructor
      · intro h
        have hcs := hmono h
        rw [h] at hb hevc hcs
        have hr1 : (ReadJXLData cfg st c).1.hasSize = true := by rw [hb, hcs]
        obtain ⟨ihf, ihc⟩ := ih1 hr1
        refine ⟨ihf, ?_⟩
        rw [List.countP_append, hevc, hcs, ihc]
        decide
      · intro h
        rw [h] at hb hevc
        rw [List.countP_append, hevc]
        cases hcs : (callSpec cfg (st.consumed ++ st.buffer ++ c) false).1 with
        | true =>
          have hr1 : (ReadJXLData cfg st c).1.hasSize = true := by rw [hb, hcs]
          obtain ⟨ihf, ihc⟩ := ih1 hr1
          rw [ihc, ihf]
          decide
        | false =>
          have hr1 : (ReadJXLData cfg st c).1.hasSize = false := by rw [hb, hcs]
          rw [ih2 hr1]
          simp
    | terminateSuccess =>
      rw [runChunks_cons_success_full cfg st c cs htr]
      constructor
      · intro h
        have hcs := hmono h
        rw [h] at hb hevc hcs
        refine ⟨by rw [hb, hcs], ?_⟩
        rw [hevc, hcs]
        decide
      · intro h
        rw [h] at hb hevc
        rw [hevc, hb]
        cases hcs : (callSpec cfg (st.consumed ++ st.buffer ++ c) false).1 <;> simp
    | terminateFailure =>
      rw [runChunks_cons_failure_full cfg st c cs htr]
      constructor
      · intro h
        have hcs := hmono h
        rw [h] at hb hevc hcs
        refine ⟨by rw [hb, hcs], ?_⟩
        rw [hevc, hcs]
        decide
      · intro h
        rw [h] at hb hevc
        rw [hevc, hb]
        cases hcs : (callSpec cfg (st.consumed ++ st.buffer ++ c) false).1 <;> simp

/-- Claim C4: over any whole session, the image size is posted to the
output collaborator at most once; and it is posted exactly once precisely
in the sessions whose final state records a size — the gate having fired
because an OK status call found the engine's image info available. -/
theorem c4_size_posted_exactly_once (cfg : DecoderConfig π) (chunks : List (List Nat)) :
    (runChunks cfg initialState chunks).2.1.countP isPostSize ≤ 1 ∧
    (runChunks cfg initialState chunks).2.1.countP isPostSize =
      (if (runChunks cfg initialState chunks).1.hasSize then 1 else 0) := by
  have h := (runChunks_postSize_count cfg chunks initialState).2 rfl
  refine ⟨?_, h⟩
  rw [h]
  split <;> simp

theorem callSpec_events_class (cfg : DecoderConfig π) (t : List Nat) (hs : Bool) :
    ∀ e ∈ (callSpec cfg t hs).2.1,
      isPostSize e = true ∨ isRowWrite e = true ∨ isCompletionEvent e = true := by
  intro e he
  unfold callSpec at he
  cases hstat : cfg.engineModel.statusOf t <;> rw [hstat] at he
  case needMoreData => simp at he
  case invalidData => simp at he
  case error => simp at he
  case unknown code => simp at he
  case ok =>
    rcases hinfo : cfg.engineModel.infoOf t with _ | info <;> rw [hinfo] at he <;>
      cases hs <;> simp only [] at he
    · split at he
      · rcases extractFrame_events cfg t e he with h | h
        · exact Or.inr (Or.inl h)
        · exact Or.inr (Or.inr h)
      · simp at he
    · split at he
      · rcases extractFrame_events cfg t e he with h | h
        · exact Or.inr (Or.inl h)
        · exact Or.inr (Or.inr h)
      · simp at he
    · split at he
      · simp at he; rw [he]; exact Or.inl rfl
      · split at he
        · simp only [List.mem_cons] at he
          rcases he with h | h
          · rw [h]; exact Or.inl rfl
          · rcases extractFrame_events cfg t e h with h2 | h2
            · exact Or.inr (Or.inl h2)
            · exact Or.inr (Or.inr h2)
        · simp at he; rw [he]; exact Or.inl rfl
    · split at he
      · rcases extractFrame_events cfg t e he with h | h
        · exact Or.inr (Or.inl h)
        · exact Or.inr (Or.inr h)
      · simp at he

/-- Claim C7: when the input stream is exhausted while the driver is still
continuing, the terminal lexer state is reached: the session fails and the
`MOZ_ASSERT_UNREACHABLE` contract-violation marker fires — an event that no
ordinary `ReadJXLData` failure path (malformed input included) ever emits,
so this failure is distinguishable from input-caused decode failures. -/
theorem c7_finished_is_assert_marked_failure (cfg : DecoderConfig π) (st : DriverState) :
    (runChunks cfg st []).2 = ([Event.assertUnreachable], Outcome.failure) ∧
    (∀ data : List Nat,
      (ReadJXLData cfg st data).2.1.all (fun e => !isAssertEvent e) = true) := by
  refine ⟨rfl, ?_⟩
  intro data
  obtain ⟨ha, _, _⟩ := readJXLData_spec cfg st data
  rw [List.all_eq_true]
  intro e he
  rw [congrArg Prod.fst ha] at he
  rcases callSpec_events_class cfg _ _ e he with h | h | h <;>
    cases e <;> simp_all [isPostSize, isRowWrite, isCompletionEvent, isAssertEvent]

theorem c5aux (cfg : DecoderConfig π)
    (hmeta : cfg.metadataDecode = true)
    (hcoh : ∀ s, cfg.engineModel.frameReadyOf s = true →
      (cfg.engineModel.infoOf s).isSome = true) :
    ∀ (cs : List (List Nat)) (st : DriverState), st.hasSize = false →
      (runChunks cfg st cs).2.1.all
        (fun e => !(isRowWrite e || isCompletionEvent e)) = true := by
  intro cs
  induction cs with
  | nil => intro st _; rfl
  | cons c cs ih =>
    intro st hhs
    obtain ⟨ha, hb, hc⟩ := readJXLData_spec cfg st c
    by_cases hok : cfg.engineModel.statusOf (st.consumed ++ st.buffer ++ c) = JxlRustStatus.ok
    · rcases hinfo : cfg.engineModel.infoOf (st.consumed ++ st.buffer ++ c) with _ | info
      · have hready : cfg.engineModel.frameReadyOf (st.consumed ++ st.buffer ++ c) = false := by
          cases hfr : cfg.engineModel.frameReadyOf (st.consumed ++ st.buffer ++ c)
          · rfl
          · have h2 := hcoh _ hfr
            rw [hinfo] at h2
            cases h2
        rw [callSpec_nogate_notready cfg _ _ hok (Or.inl hinfo) hready] at ha hb
        have htr : (ReadJXLData cfg st c).2.2 = LexerTransitionKind.continueUnbuffered :=
          congrArg Prod.snd ha
        rw [runChunks_cons_continue cfg st c cs htr, congrArg Prod.fst ha, List.nil_append]
        exact ih (ReadJXLData cfg st c).1 (by rw [hb, hhs])
      · rw [hhs] at ha
        rw [callSpec_gate_meta cfg _ info hok hinfo hmeta] at ha
        have htr : (ReadJXLData cfg st c).2.2 = LexerTransitionKind.terminateSuccess :=
          congrArg Prod.snd ha
        rw [runChunks_cons_success cfg st c cs htr, congrArg Prod.fst ha]
        rfl
    · by_cases hneed : cfg.engineModel.statusOf (st.consumed ++ st.buffer ++ c) =
          JxlRustStatus.needMoreData
      · rw [callSpec_need cfg _ _ hneed] at ha hb
        have htr : (ReadJXLData cfg st c).2.2 = LexerTransitionKind.continueUnbuffered :=
          congrArg Prod.snd ha
        rw [runChunks_cons_continue cfg st c cs htr, congrArg Prod.fst ha, List.nil_append]
        exact ih (ReadJXLData cfg st c).1 (by rw [hb, hhs])
      · have hbad : isBadStatus (cfg.engineModel.statusOf (st.consumed ++ st.buffer ++ c)) =
            true := by
          cases hx : cfg.engineModel.statusOf (st.consumed ++ st.buffer ++ c) <;>
            simp_all [isBadStatus]
        rw [callSpec_bad cfg _ _ hbad] at ha
        have htr : (ReadJXLData cfg st c).2.2 = LexerTransitionKind.terminateFailure :=
          congrArg Prod.snd ha
        rw [runChunks_cons_failure cfg st c cs htr, congrArg Prod.fst ha]
        rfl

/-- Claim C5: in a metadata-only session the driver terminates with
success the moment image info first becomes available (posting exactly the
size), and over any whole metadata-only session no pixel-sink row write
and no frame-completion or decode-completion notification ever happens —
frame extraction is never entered.  The engine-contract hypothesis records
that a frame is never ready before image info is available. -/
theorem c5_metadata_only_session (cfg : DecoderConfig π)
    (hmeta : cfg.metadataDecode = true)
    (hcoh : ∀ s, cfg.engineModel.frameReadyOf s = true →
      (cfg.engineModel.infoOf s).isSome = true) :
    (∀ (st : DriverState) (data : List Nat) (info : JxlRustImageInfo),
      st.hasSize = false →
      cfg.engineModel.statusOf (st.consumed ++ st.buffer ++ data) = JxlRustStatus.ok →
      cfg.engineModel.infoOf (st.consumed ++ st.buffer ++ data) = some info →
      (ReadJXLData cfg st data).2 =
        ([Event.postSize info.width info.height], LexerTransitionKind.terminateSuccess)) ∧
    (∀ chunks : List (List Nat),
      (runChunks cfg initialState chunks).2.1.all
        (fun e => !(isRowWrite e || isCompletionEvent e)) = true) := by
  constructor
  · intro st data info hhs hok hinfo
    obtain ⟨ha, _, _⟩ := readJXLData_spec cfg st data
    rw [hhs] at ha
    rw [callSpec_gate_meta cfg _ info hok hinfo hmeta] at ha
    exact ha
  · intro chunks
    exact c5aux cfg hmeta hcoh chunks initialState rfl

def c5WitEngine : JxlRustEngineModel :=
  { statusOf := fun _ => JxlRustStatus.ok
    infoOf := fun _ => some { width := 9, height := 5 }
    frameReadyOf := fun _ => false
    decodeFrameOf := fun _ _ => (JxlRustStatus.error, 0, []) }

def c5WitCfg : DecoderConfig Unit :=
  { engineModel := c5WitEngine, pipeModel := c3WitPipe,
    outputSize := (9, 5), metadataDecode := true }

/-- Witness for C5: a metadata-only session that sees info on its first OK
call posts the size once and succeeds, with no pixel output. -/
theorem c5_metadata_only_session_witness :
    (ReadJXLData c5WitCfg initialState [0]).2 =
      ([Event.postSize 9 5], LexerTransitionKind.terminateSuccess) ∧
    (runChunks c5WitCfg initialState [[0]]).2.1.all
      (fun e => !(isRowWrite e || isCompletionEvent e)) = true := by
  have h := c5_metadata_only_session c5WitCfg rfl (fun _ hr => Bool.noConfusion hr)
  exact ⟨h.1 initialState [0] { width := 9, height := 5 } rfl rfl rfl, h.2 [[0]]⟩

theorem writeRowsLoop_all_not_completion (P : SurfacePipeModel π)
    (rows : List (List Nat)) (pipe : π) :
    (writeRowsLoop P pipe rows).2.1.all (fun e => !isCompletionEvent e) = true := by
  rw [List.all_eq_true]
  intro e he
  have h := writeRowsLoop_events P rows pipe e he
  cases e <;> simp_all [isRowWrite, isCompletionEvent]

theorem extractFrame_completion (cfg : DecoderConfig π) (t : List Nat) :
    ((extractFrame cfg t).2 ≠ LexerTransitionKind.terminateSuccess →
      (extractFrame cfg t).1.all (fun e => !isCompletionEvent e) = true) ∧
    ((extractFrame cfg t).1.any isCompletionEvent = true →
      (extractFrame cfg t).2 = LexerTransitionKind.terminateSuccess ∧
      (cfg.engineModel.decodeFrameOf t (cfg.outputSize.1 * cfg.outputSize.2)).1 =
        JxlRustStatus.ok ∧
      (cfg.engineModel.decodeFrameOf t (cfg.outputSize.1 * cfg.outputSize.2)).2.1 =
        cfg.outputSize.1 * cfg.outputSize.2 ∧
      (∀ p, cfg.pipeModel.create cfg.outputSize cfg.outputSize = some p →
        (writeRowsLoop cfg.pipeModel p
          (rowsOf (pixelBufferAfterDecode
              (cfg.engineModel.decodeFrameOf t (cfg.outputSize.1 * cfg.outputSize.2)).2.2
              (cfg.outputSize.1 * cfg.outputSize.2))
            cfg.outputSize.1 cfg.outputSize.2)).2.2 = true)) := by
  unfold extractFrame
  rcases hcr : cfg.pipeModel.create cfg.outputSize cfg.outputSize with _ | pipe
  · exact ⟨fun _ => rfl, fun h => by cases h⟩
  · simp only []
    by_cases hmis : (cfg.engineModel.decodeFrameOf t (cfg.outputSize.1 * cfg.outputSize.2)).1 ≠
        JxlRustStatus.ok ∨
      (cfg.engineModel.decodeFrameOf t (cfg.outputSize.1 * cfg.outputSize.2)).2.1 ≠
        cfg.outputSize.1 * cfg.outputSize.2
    · rw [if_pos hmis]
      exact ⟨fun _ => rfl, fun h => by cases h⟩
    · rw [if_neg hmis]
      push_neg at hmis
      obtain ⟨hds, hdc⟩ := hmis
      by_cases hwr : (writeRowsLoop cfg.pipeModel pipe
          (rowsOf (pixelBufferAfterDecode
              (cfg.engineModel.decodeFrameOf t (cfg.outputSize.1 * cfg.outputSize.2)).2.2
              (cfg.outputSize.1 * cfg.outputSize.2))
            cfg.outputSize.1 cfg.outputSize.2)).2.2 = true
      · rw [if_pos hwr]
        constructor
        · intro h
          exact absurd rfl h
        · intro _
          refine ⟨rfl, hds, hdc, ?_⟩
          intro p hp
          injection hp with hp2
          rw [← hp2]
          exact hwr
      · rw [if_neg hwr]
        constructor
        · intro _
          exact writeRowsLoop_all_not_completion cfg.pipeModel _ pipe
        · intro h
          have hall := writeRowsLoop_all_not_completion cfg.pipeModel
            (rowsOf (pixelBufferAfterDecode
                (cfg.engineModel.decodeFrameOf t (cfg.outputSize.1 * cfg.outputSize.2)).2.2
                (cfg.outputSize.1 * cfg.outputSize.2))
              cfg.outputSize.1 cfg.outputSize.2) pipe
          rw [List.all_eq_true] at hall
          rw [List.any_eq_true] at h
          obtain ⟨e, he, hpe⟩ := h
          have h2 := hall e he
          rw [hpe] at h2
          cases h2

/-- Claim C9: the invalidation report and the frame-complete and
decode-complete notifications are issued only on the single success path of
frame extraction — a path on which the process status was OK, the frame was
ready, `decode_frame` returned OK with exactly the expected pixel count,
and every row write into the sink succeeded; no failing or continuing call
issues any of them. -/
theorem c9_completion_only_on_success (cfg : DecoderConfig π) (st : DriverState)
    (data : List Nat) :
    ((ReadJXLData cfg st data).2.2 ≠ LexerTransitionKind.terminateSuccess →
      (ReadJXLData cfg st data).2.1.all (fun e => !isCompletionEvent e) = true) ∧
    ((ReadJXLData cfg st data).2.1.any isCompletionEvent = true →
      (ReadJXLData cfg st data).2.2 = LexerTransitionKind.terminateSuccess ∧
      cfg.engineModel.statusOf (st.consumed ++ st.buffer ++ data) = JxlRustStatus.ok ∧
      cfg.engineModel.frameReadyOf (st.consumed ++ st.buffer ++ data) = true ∧
      (cfg.engineModel.decodeFrameOf (st.consumed ++ st.buffer ++ data)
        (cfg.outputSize.1 * cfg.outputSize.2)).1 = JxlRustStatus.ok ∧
      (cfg.engineModel.decodeFrameOf (st.consumed ++ st.buffer ++ data)
        (cfg.outputSize.1 * cfg.outputSize.2)).2.1 =
        cfg.outputSize.1 * cfg.outputSize.2 ∧
      (∀ p, cfg.pipeModel.create cfg.outputSize cfg.outputSize = some p →
        (writeRowsLoop cfg.pipeModel p
          (rowsOf (pixelBufferAfterDecode
              (cfg.engineModel.decodeFrameOf (st.consumed ++ st.buffer ++ data)
                (cfg.outputSize.1 * cfg.outputSize.2)).2.2
              (cfg.outputSize.1 * cfg.outputSize.2))
            cfg.outputSize.1 cfg.outputSize.2)).2.2 = true)) := by
  obtain ⟨ha, _, _⟩ := readJXLData_spec cfg st data
  have hevs : (ReadJXLData cfg st data).2.1 =
      (callSpec cfg (st.consumed ++ st.buffer ++ data) st.hasSize).2.1 :=
    congrArg Prod.fst ha
  have htr : (ReadJXLData cfg st data).2.2 =
      (callSpec cfg (st.consumed ++ st.buffer ++ data) st.hasSize).2.2 :=
    congrArg Prod.snd ha
  obtain ⟨hextc1, hextc2⟩ := extractFrame_completion cfg (st.consumed ++ st.buffer ++ data)
  by_cases hok : cfg.engineModel.statusOf (st.consumed ++ st.buffer ++ data) = JxlRustStatus.ok
  · by_cases hgate : cfg.engineModel.infoOf (st.consumed ++ st.buffer ++ data) = none ∨
        st.hasSize = true
    · cases hready : cfg.engineModel.frameReadyOf (st.consumed ++ st.buffer ++ data) with
      | true =>
        rw [callSpec_nogate_ready cfg _ _ hok hgate hready] at hevs htr
        rw [hevs, htr]
        constructor
        · exact hextc1
        · intro h
          obtain ⟨h1, h2, h3, h4⟩ := hextc2 h
          exact ⟨h1, hok, rfl, h2, h3, h4⟩
      | false =>
        rw [callSpec_nogate_notready cfg _ _ hok hgate hready] at hevs htr
        rw [hevs, htr]
        exact ⟨fun _ => rfl, fun h => by cases h⟩
    · push_neg at hgate
      obtain ⟨hinfo0, hhs⟩ := hgate
      rcases hinfo : cfg.engineModel.infoOf (st.consumed ++ st.buffer ++ data) with _ | info
      · exact absurd hinfo hinfo0
      have hhs2 : st.hasSize = false := by
        cases hx : st.hasSize
        · rfl
        · exact absurd hx hhs
      rw [hhs2] at hevs htr
      by_cases hmd : cfg.metadataDecode = true
      · rw [callSpec_gate_meta cfg _ info hok hinfo hmd] at hevs htr
        rw [hevs, htr]
        exact ⟨fun h => absurd rfl h, fun h => by cases h⟩
      · have hmd2 : cfg.metadataDecode = false := by
          cases hx : cfg.metadataDecode
          · rfl
          · exact absurd hx hmd
        cases hready : cfg.engineModel.frameReadyOf (st.consumed ++ st.buffer ++ data) with
        | true =>
          rw [callSpec_gate_ready cfg _ info hok hinfo hmd2 hready] at hevs htr
          rw [hevs, htr]
          constructor
          · intro h
            rw [List.all_cons]
            rw [hextc1 h]
            rfl
          · intro h
            rw [List.any_cons] at h
            have h2 : (extractFrame cfg (st.consumed ++ st.buffer ++ data)).1.any
                isCompletionEvent = true := by
              cases hy : (extractFrame cfg (st.consumed ++ st.buffer ++ data)).1.any
                  isCompletionEvent
              · rw [hy] at h; cases h
              · rfl
            obtain ⟨h1, h2b, h3, h4⟩ := hextc2 h2
            exact ⟨h1, hok, rfl, h2b, h3, h4⟩
        | false =>
          rw [callSpec_gate_notready cfg _ info hok hinfo hmd2 hready] at hevs htr
          rw [hevs, htr]
          exact ⟨fun _ => rfl, fun h => by cases h⟩
  · by_cases hneed : cfg.engineModel.statusOf (st.consumed ++ st.buffer ++ data) =
        JxlRustStatus.needMoreData
    · rw [callSpec_need cfg _ _ hneed] at hevs htr
      rw [hevs, htr]
      exact ⟨fun _ => rfl, fun h => by cases h⟩
    · have hbad : isBadStatus (cfg.engineModel.statusOf (st.consumed ++ st.buffer ++ data)) =
          true := by
        cases hx : cfg.engineModel.statusOf (st.consumed ++ st.buffer ++ data) <;>
          simp_all [isBadStatus]
      rw [callSpec_bad cfg _ _ hbad] at hevs htr
      rw [hevs, htr]
      exact ⟨fun _ => rfl, fun h => by cases h⟩

def c9WitEngine : JxlRustEngineModel :=
  { statusOf := fun _ => JxlRustStatus.ok
    infoOf := fun _ => some { width := 1, height := 1 }
    frameReadyOf := fun _ => true
    decodeFrameOf := fun _ cap => (JxlRustStatus.ok, cap, List.replicate cap 5) }

def c9WitCfg : DecoderConfig Unit :=
  { engineModel := c9WitEngine, pipeModel := c3WitPipe,
    outputSize := (1, 1), metadataDecode := false }

/-- Witness for C9: a session whose call does emit the completion events is
a successful one. -/
theorem c9_completion_only_on_success_witness :
    (ReadJXLData c9WitCfg initialState [0]).2.2 = LexerTransitionKind.terminateSuccess :=
  ((c9_completion_only_on_success c9WitCfg initialState [0]).2 (by decide)).1
